import Mathlib

/-!
Verification of the news-scraper program `scrape_news.py`.

Shallow embedding conventions:
* The history CSV file `links.csv` is modelled as a `List (List String)`:
  one entry per CSV row, each row a list of fields.  A program run that
  starts with no `links.csv` on disk is modelled by `Option Csv = none`.
* A Python `set` of strings is modelled as a `List String` whose only
  observable interface is membership (insertion order mirrors iteration
  order of the rows; `get_new_links` only tests membership).
* Python exceptions are modelled with `Except PyErr`.  Each scraper's
  `scrape()` call is summarised by its outcome, an
  `Except PyErr (List (String, String))`:
  `requests.get` raises (network failure) gives `.error`, while a non-200
  response body or a selector mismatch makes `soup.select` return no
  nodes, giving `.ok` with an empty (or truncated) list.
* The SMTP interaction inside `send_email`'s `try` block is summarised by
  its outcome `Except SmtpErr Unit`.
-/

set_option autoImplicit false

namespace ScrapeNews

/-- A CSV file: a list of rows, each row a list of fields. -/
abbrev Csv := List (List String)

/-- The list of `(title, link)` pairs a scraper returns. -/
abbrev Links := List (String × String)

/-- Python exceptions that the script can raise. -/
inductive PyErr where
  /-- `FileNotFoundError` from `open('links.csv', 'r')`. -/
  | fileNotFound
  /-- `StopIteration` from `next(reader)` on a file with no rows. -/
  | stopIteration
  /-- `IndexError` from `row[1]` on a row with fewer than two fields. -/
  | indexError
  /-- An exception raised by `requests.get` (e.g. a network failure). -/
  | requestException (msg : String)
  deriving DecidableEq, Repr

/-- Exceptions the SMTP interaction in `send_email` can raise. -/
inductive SmtpErr where
  | authError
  | networkError
  | other (msg : String)
  deriving DecidableEq, Repr

/-- `write_to_csv(links, source, filename="links.csv")`, lines 72-77:
opens the file in append mode and writes one row `[title, link, source]`
per link, in loop order.  The file is passed and returned explicitly. -/
def write_to_csv (links : Links) (source : String) (file : Csv) : Csv :=
  links.foldl (fun f p => f ++ [[p.1, p.2, source]]) file

/-- The row-reading loop of `load_existing_links`, lines 86-87: iterates
over the remaining rows, adding `row[1]` to the set; a row with fewer
than two fields raises `IndexError`. -/
def readRowsLoop : List (List String) → List String → Except PyErr (List String)
  | [], acc => .ok acc
  | row :: rest, acc =>
    match row.get? 1 with
    | some url => readRowsLoop rest (acc ++ [url])
    | none => .error .indexError

/-- `load_existing_links()`, lines 79-89: reads `links.csv`, skips the
header row with `next(reader)` (raising `StopIteration` if the file has
no rows at all), and collects the second column of every remaining row.
The caller supplies the file contents; a missing file is handled by the
caller (`main`) as `FileNotFoundError`. -/
def load_existing_links : Csv → Except PyErr (List String)
  | [] => .error .stopIteration
  | _header :: rows => readRowsLoop rows []

/-- `get_new_links(existing_links, scraped_links)`, lines 91-93: the list
comprehension `[(title, link) for title, link in scraped_links if link
not in existing_links]`, evaluated left to right. -/
def get_new_links (existing_links : List String) : Links → Links
  | [] => []
  | (title, link) :: rest =>
    if link ∈ existing_links then get_new_links existing_links rest
    else (title, link) :: get_new_links existing_links rest

/-- The fixed preamble of the notification body, line 101. -/
def email_preamble : String := "Here are the new links:\n\n"

/-- The body-building loop of `send_email`, lines 101-103: starts from
the preamble and appends one formatted line per item. -/
def email_body (new_links : Links) : String :=
  new_links.foldl (fun acc p => acc ++ (p.1 ++ ": " ++ p.2 ++ "\n")) email_preamble

/-- `send_email(new_links)`, lines 99-124: builds the body, then attempts
the SMTP send inside `try`; any exception is logged by the `except`
branch and swallowed, so the function always returns normally.  The
returned value records the logged error, if any. -/
def send_email (new_links : Links) (smtp : Except SmtpErr Unit) : Option SmtpErr :=
  let _body := email_body new_links
  match smtp with
  | .ok _ => none
  | .error e => some e

/-- `main()`, lines 131-174, as a function of the initial file state
(`none` when no `links.csv` exists) and the two scrape outcomes.
Mirrors the source order: `load_existing_links()` runs first (line 137);
the `os.path.exists` check of lines 141-144 runs only afterwards, at
which point the file necessarily exists, so its header-writing branch
can never execute; then the OCC scrape, filter and conditional append;
then the Federal Reserve scrape, filter and conditional append.
Returns the final file together with `new_links`. -/
def main (file : Option Csv) (occFetch fedFetch : Except PyErr Links) :
    Except PyErr (Csv × Links) :=
  match file with
  | none => .error .fileNotFound
  | some f =>
    match load_existing_links f with
    | .error e => .error e
    | .ok existing_links =>
      match occFetch with
      | .error e => .error e
      | .ok occ_links =>
        let new_occ_links := get_new_links existing_links occ_links
        let f1 := if new_occ_links.isEmpty then f
                  else write_to_csv new_occ_links "OCC" f
        match fedFetch with
        | .error e => .error e
        | .ok fed_links =>
          let new_fed_links := get_new_links existing_links fed_links
          let f2 := if new_fed_links.isEmpty then f1
                    else write_to_csv new_fed_links "Federal Reserve" f1
          .ok (f2, new_occ_links ++ new_fed_links)

/-- The observable outcome of one whole process run. -/
structure ProcResult where
  /-- The final contents of `links.csv`. -/
  file : Csv
  /-- The value returned by `main()`. -/
  new_links_found : Links
  /-- The argument `send_email` was invoked with, `none` if not invoked. -/
  email_arg : Option Links
  /-- The SMTP error logged inside `send_email`, if any. -/
  email_logged : Option SmtpErr
  deriving DecidableEq, Repr

/-- The `if __name__ == "__main__"` block, lines 177-181: runs `main()`
and, when the returned list is non-empty, invokes `send_email` exactly
once with it.  An uncaught exception from `main` aborts the process. -/
def script (file : Option Csv) (occFetch fedFetch : Except PyErr Links)
    (smtp : Except SmtpErr Unit) : Except PyErr ProcResult :=
  match main file occFetch fedFetch with
  | .error e => .error e
  | .ok (f2, new_links_found) =>
    if new_links_found.isEmpty then
      .ok ⟨f2, new_links_found, none, none⟩
    else
      .ok ⟨f2, new_links_found, some new_links_found,
           send_email new_links_found smtp⟩

/-- The contents of `links.csv` on disk when the process ends, covering
runs aborted by an uncaught exception as well: each `write_to_csv` call
has already mutated the file by the time a later statement raises, so an
abort during the Federal Reserve fetch (line 162) leaves the OCC rows of
lines 149-153 on disk.  On the success path this is the same file `main`
returns. -/
def diskAfter (file : Option Csv) (occFetch fedFetch : Except PyErr Links) :
    Option Csv :=
  match file with
  | none => none
  | some f =>
    match load_existing_links f with
    | .error _ => some f
    | .ok existing_links =>
      match occFetch with
      | .error _ => some f
      | .ok occ_links =>
        let new_occ_links := get_new_links existing_links occ_links
        let f1 := if new_occ_links.isEmpty then f
                  else write_to_csv new_occ_links "OCC" f
        match fedFetch with
        | .error _ => some f1
        | .ok fed_links =>
          let new_fed_links := get_new_links existing_links fed_links
          some (if new_fed_links.isEmpty then f1
                else write_to_csv new_fed_links "Federal Reserve" f1)

/-! ### Helper lemmas -/

theorem get_new_links_eq_filter (K : List String) (I : Links) :
    get_new_links K I = I.filter (fun p => decide (p.2 ∉ K)) := by
  induction I with
  | nil => rfl
  | cons p rest ih =>
    obtain ⟨t, l⟩ := p
    by_cases h : l ∈ K <;> simp [get_new_links, List.filter, h, ih]

theorem write_to_csv_eq (links : Links) (source : String) (file : Csv) :
    write_to_csv links source file =
      file ++ links.map (fun p => [p.1, p.2, source]) := by
  induction links generalizing file with
  | nil => simp [write_to_csv]
  | cons p rest ih =>
    simp only [write_to_csv, List.foldl_cons, List.map_cons] at *
    rw [ih (file ++ [[p.1, p.2, source]])]
    simp

/-- The file produced by a successful `main` run, as a function of the
loaded snapshot and the two scraped lists. -/
def fileAfter (f : Csv) (ex : List String) (occL fedL : Links) : Csv :=
  let f1 := if (get_new_links ex occL).isEmpty then f
            else write_to_csv (get_new_links ex occL) "OCC" f
  if (get_new_links ex fedL).isEmpty then f1
  else write_to_csv (get_new_links ex fedL) "Federal Reserve" f1

/-- The rows a successful `main` run appends. -/
def appendedRows (ex : List String) (occL fedL : Links) : Csv :=
  (get_new_links ex occL).map (fun p => [p.1, p.2, "OCC"]) ++
  (get_new_links ex fedL).map (fun p => [p.1, p.2, "Federal Reserve"])

theorem fileAfter_eq (f : Csv) (ex : List String) (occL fedL : Links) :
    fileAfter f ex occL fedL = f ++ appendedRows ex occL fedL := by
  unfold fileAfter appendedRows
  by_cases h1 : (get_new_links ex occL).isEmpty <;>
    by_cases h2 : (get_new_links ex fedL).isEmpty <;>
      simp_all [write_to_csv_eq, List.isEmpty_iff, List.append_assoc]

theorem main_some_ok (f : Csv) (ex : List String) (occL fedL : Links)
    (hl : load_existing_links f = .ok ex) :
    main (some f) (.ok occL) (.ok fedL) =
      .ok (fileAfter f ex occL fedL,
           get_new_links ex occL ++ get_new_links ex fedL) := by
  simp [main, hl, fileAfter]

theorem main_ok_inv (file : Option Csv) (occFetch fedFetch : Except PyErr Links)
    (f2 : Csv) (nl : Links)
    (h : main file occFetch fedFetch = .ok (f2, nl)) :
    ∃ f ex occL fedL, file = some f ∧ load_existing_links f = .ok ex ∧
      occFetch = .ok occL ∧ fedFetch = .ok fedL ∧
      f2 = fileAfter f ex occL fedL ∧
      nl = get_new_links ex occL ++ get_new_links ex fedL := by
  match file with
  | none => simp [main] at h
  | some f =>
    match hl : load_existing_links f with
    | .error e => simp [main, hl] at h
    | .ok ex =>
      match hocc : occFetch with
      | .error e => simp [main, hl] at h
      | .ok occL =>
        match hfed : fedFetch with
        | .error e => simp [main, hl] at h
        | .ok fedL =>
          rw [main_some_ok f ex occL fedL hl] at h
          injection h with h
          injection h with h1 h2
          exact ⟨f, ex, occL, fedL, rfl, hl, rfl, rfl, h1.symm, h2.symm⟩

theorem readRowsLoop_ok_all (rows : List (List String)) (acc : List String)
    (h : ∀ row ∈ rows, 2 ≤ row.length) :
    readRowsLoop rows acc = .ok (acc ++ rows.filterMap (fun r => r.get? 1)) := by
  induction rows generalizing acc with
  | nil => simp [readRowsLoop]
  | cons row rest ih =>
    have hrow : 2 ≤ row.length := h row (List.mem_cons_self row rest)
    obtain ⟨u, hu⟩ : ∃ u, row.get? 1 = some u := by
      cases hg : row.get? 1 with
      | some u => exact ⟨u, rfl⟩
      | none => rw [List.get?_eq_none] at hg; omega
    calc readRowsLoop (row :: rest) acc
        = readRowsLoop rest (acc ++ [u]) := by rw [readRowsLoop, hu]
      _ = .ok (acc ++ [u] ++ rest.filterMap (fun r => r.get? 1)) :=
          ih (acc ++ [u]) (fun r hr => h r (List.mem_cons_of_mem row hr))
      _ = .ok (acc ++ (row :: rest).filterMap (fun r => r.get? 1)) := by
          rw [List.get?_eq_getElem?] at hu
          simp [List.filterMap_cons, hu, List.append_assoc]

theorem readRowsLoop_seq (rows1 rows2 : List (List String)) (acc m : List String)
    (h : readRowsLoop rows1 acc = .ok m) :
    readRowsLoop (rows1 ++ rows2) acc = readRowsLoop rows2 m := by
  induction rows1 generalizing acc with
  | nil =>
    simp only [readRowsLoop] at h
    injection h with h
    simp [h]
  | cons row rest ih =>
    rw [readRowsLoop] at h
    rw [List.cons_append, readRowsLoop]
    match hrow : row.get? 1 with
    | some u =>
      rw [hrow] at h
      exact ih (acc ++ [u]) h
    | none => rw [hrow] at h; exact absurd h (by simp)

theorem readRowsLoop_ok_or_indexError (rows : List (List String)) (acc : List String) :
    (∃ m, readRowsLoop rows acc = .ok m) ∨
    readRowsLoop rows acc = .error .indexError := by
  induction rows generalizing acc with
  | nil => exact Or.inl ⟨acc, rfl⟩
  | cons row rest ih =>
    rw [readRowsLoop]
    match hrow : row.get? 1 with
    | some u => exact ih (acc ++ [u])
    | none => exact Or.inr rfl

theorem readRowsLoop_ok_lengths (rows : List (List String)) (acc m : List String)
    (h : readRowsLoop rows acc = .ok m) :
    ∀ row ∈ rows, 2 ≤ row.length := by
  induction rows generalizing acc with
  | nil => intro row hrow; simp at hrow
  | cons row rest ih =>
    rw [readRowsLoop] at h
    match hrow : row.get? 1 with
    | some u =>
      rw [hrow] at h
      intro r hr
      rcases List.mem_cons.mp hr with h1 | h1
      · subst h1
        obtain ⟨hlt, -⟩ := List.get?_eq_some.mp hrow
        omega
      · exact ih (acc ++ [u]) h r h1
    | none => rw [hrow] at h; exact absurd h (by simp)

theorem mem_get_new_links (K : List String) (I : Links) (p : String × String) :
    p ∈ get_new_links K I ↔ p ∈ I ∧ p.2 ∉ K := by
  rw [get_new_links_eq_filter]
  simp [List.mem_filter]

theorem filterMap_rowOf (src : String) (L : Links) :
    (L.map (fun p => [p.1, p.2, src])).filterMap (fun r => r.get? 1) =
      L.map Prod.snd := by
  induction L with
  | nil => rfl
  | cons p rest ih =>
    rw [List.map_cons, List.filterMap_cons, List.map_cons, ← ih]
    rfl

theorem get_new_links_nil_of_subset (K : List String) (I : Links)
    (h : ∀ p ∈ I, p.2 ∈ K) : get_new_links K I = [] := by
  rw [get_new_links_eq_filter, List.filter_eq_nil_iff]
  intro p hp
  simp [h p hp]

/-! ### C1 -/

/-- C1: for every known-URL set `K` and item sequence `I`, `get_new_links
K I` is exactly the subsequence of `I` of items whose url is not in `K`:
it equals the order-preserving filter of `I` by that predicate, it is a
sublist of `I` (so relative order is preserved), and an item belongs to
it iff it occurs in `I` with a url outside `K`.  The embedding is a pure
function, so there are no side effects. -/
theorem C1_novelty_filter (K : List String) (I : Links) :
    get_new_links K I = I.filter (fun p => decide (p.2 ∉ K)) ∧
    (get_new_links K I).Sublist I ∧
    ∀ p : String × String, p ∈ get_new_links K I ↔ p ∈ I ∧ p.2 ∉ K := by
  refine ⟨get_new_links_eq_filter K I, ?_, ?_⟩
  · rw [get_new_links_eq_filter]
    exact List.filter_sublist I
  · intro p
    rw [get_new_links_eq_filter]
    simp [List.mem_filter]

/-! ### C2 -/

/-- C2: the history store is append-only.  `write_to_csv` maps its links
to rows in order and appends them after the existing file contents, and
any successful `main` run leaves the initial file as an unchanged prefix
of the final file, with the run's rows appended at the end. -/
theorem C2_append_only (links : Links) (src : String) (g f f2 : Csv)
    (occFetch fedFetch : Except PyErr Links) (nl : Links)
    (h : main (some f) occFetch fedFetch = .ok (f2, nl)) :
    write_to_csv links src g = g ++ links.map (fun p => [p.1, p.2, src]) ∧
    ∃ rows, f2 = f ++ rows := by
  refine ⟨write_to_csv_eq links src g, ?_⟩
  obtain ⟨f', ex, occL, fedL, hf, hl, -, -, hf2, -⟩ :=
    main_ok_inv (some f) occFetch fedFetch f2 nl h
  injection hf with hf
  subst hf
  exact ⟨appendedRows ex occL fedL, by rw [hf2, fileAfter_eq]⟩

/-- Witness for C2 at a concrete run: a header-only file, one new OCC
link, no Federal Reserve links. -/
theorem C2_append_only_witness :
    write_to_csv [("A", "u")] "OCC" [["Title", "Link", "Source"]] =
      [["Title", "Link", "Source"]] ++ [["A", "u", "OCC"]] ∧
    ∃ rows, [["Title", "Link", "Source"], ["A", "u", "OCC"]] =
      [["Title", "Link", "Source"]] ++ rows :=
  C2_append_only [("A", "u")] "OCC" [["Title", "Link", "Source"]]
    [["Title", "Link", "Source"]] [["Title", "Link", "Source"], ["A", "u", "OCC"]]
    (.ok [("A", "u")]) (.ok []) [("A", "u")] rfl

/-! ### C3 -/

/-- C3: idempotence.  If a run of `main` starting from file `f` with
scrape outcomes `occL` and `fedL` succeeds and leaves file `f2`, then
every URL scraped by either source is already in the known-URL set
loaded from `f2`, and a second run of the whole script from `f2` with
the same scrape outcomes succeeds with zero new items: the file is
unchanged and `send_email` is not invoked. -/
theorem C3_idempotence (f f2 : Csv) (occL fedL nl : Links)
    (smtp : Except SmtpErr Unit)
    (h : main (some f) (.ok occL) (.ok fedL) = .ok (f2, nl)) :
    (∃ ex2, load_existing_links f2 = .ok ex2 ∧
      ∀ p ∈ occL ++ fedL, p.2 ∈ ex2) ∧
    script (some f2) (.ok occL) (.ok fedL) smtp = .ok ⟨f2, [], none, none⟩ := by
  obtain ⟨f', ex, occL', fedL', hf, hl, hocc, hfed, hf2, -⟩ :=
    main_ok_inv (some f) (.ok occL) (.ok fedL) f2 nl h
  injection hf with hf
  subst hf
  injection hocc with hocc
  injection hfed with hfed
  subst hocc
  subst hfed
  obtain ⟨hd, rows, rfl⟩ : ∃ hd rows, f = hd :: rows := by
    cases f with
    | nil => exact absurd hl (by simp [load_existing_links])
    | cons hd rows => exact ⟨hd, rows, rfl⟩
  have hrr : readRowsLoop rows [] = .ok ex := hl
  have happlen : ∀ row ∈ appendedRows ex occL fedL, 2 ≤ row.length := by
    intro row hrow
    rcases List.mem_append.mp hrow with h1 | h1 <;>
      · obtain ⟨p, -, rfl⟩ := List.mem_map.mp h1
        simp
  have hf2eq : f2 = hd :: (rows ++ appendedRows ex occL fedL) := by
    rw [hf2, fileAfter_eq]
    rfl
  have hload2 : load_existing_links f2 =
      .ok (ex ++ (appendedRows ex occL fedL).filterMap (fun r => r.get? 1)) := by
    rw [hf2eq]
    show readRowsLoop (rows ++ appendedRows ex occL fedL) [] = _
    rw [readRowsLoop_seq rows (appendedRows ex occL fedL) [] ex hrr,
      readRowsLoop_ok_all (appendedRows ex occL fedL) ex happlen]
  have happ : (appendedRows ex occL fedL).filterMap (fun r => r.get? 1) =
      (get_new_links ex occL).map Prod.snd ++ (get_new_links ex fedL).map Prod.snd := by
    unfold appendedRows
    rw [List.filterMap_append, filterMap_rowOf, filterMap_rowOf]
  rw [happ] at hload2
  have hsub : ∀ p ∈ occL ++ fedL,
      p.2 ∈ ex ++ ((get_new_links ex occL).map Prod.snd ++
        (get_new_links ex fedL).map Prod.snd) := by
    intro p hp
    rcases List.mem_append.mp hp with h1 | h1
    · by_cases hk : p.2 ∈ ex
      · exact List.mem_append_left _ hk
      · have hmem : p ∈ get_new_links ex occL :=
          (mem_get_new_links ex occL p).mpr ⟨h1, hk⟩
        exact List.mem_append_right _
          (List.mem_append_left _ (List.mem_map.mpr ⟨p, hmem, rfl⟩))
    · by_cases hk : p.2 ∈ ex
      · exact List.mem_append_left _ hk
      · have hmem : p ∈ get_new_links ex fedL :=
          (mem_get_new_links ex fedL p).mpr ⟨h1, hk⟩
        exact List.mem_append_right _
          (List.mem_append_right _ (List.mem_map.mpr ⟨p, hmem, rfl⟩))
  refine ⟨⟨_, hload2, hsub⟩, ?_⟩
  have hocc2 : get_new_links (ex ++ ((get_new_links ex occL).map Prod.snd ++
      (get_new_links ex fedL).map Prod.snd)) occL = [] :=
    get_new_links_nil_of_subset _ _
      (fun p hp => hsub p (List.mem_append_left _ hp))
  have hfed2 : get_new_links (ex ++ ((get_new_links ex occL).map Prod.snd ++
      (get_new_links ex fedL).map Prod.snd)) fedL = [] :=
    get_new_links_nil_of_subset _ _
      (fun p hp => hsub p (List.mem_append_right _ hp))
  have hmain2 := main_some_ok f2 _ occL fedL hload2
  have hfile2 : fileAfter f2 (ex ++ ((get_new_links ex occL).map Prod.snd ++
      (get_new_links ex fedL).map Prod.snd)) occL fedL = f2 := by
    unfold fileAfter
    rw [hocc2, hfed2]
    simp
  rw [hocc2, hfed2, hfile2] at hmain2
  simp [script, hmain2]

/-- Witness for C3 at a concrete first run appending one row per source. -/
theorem C3_idempotence_witness :
    (∃ ex2, load_existing_links
        [["Title", "Link", "Source"], ["A", "u1", "OCC"],
         ["B", "u2", "Federal Reserve"]] = .ok ex2 ∧
      ∀ p ∈ ([("A", "u1")] ++ [("B", "u2")] : Links), p.2 ∈ ex2) ∧
    script (some [["Title", "Link", "Source"], ["A", "u1", "OCC"],
        ["B", "u2", "Federal Reserve"]]) (.ok [("A", "u1")]) (.ok [("B", "u2")])
        (.ok ()) =
      .ok ⟨[["Title", "Link", "Source"], ["A", "u1", "OCC"],
        ["B", "u2", "Federal Reserve"]], [], none, none⟩ :=
  C3_idempotence [["Title", "Link", "Source"]]
    [["Title", "Link", "Source"], ["A", "u1", "OCC"], ["B", "u2", "Federal Reserve"]]
    [("A", "u1")] [("B", "u2")] [("A", "u1"), ("B", "u2")] (.ok ()) rfl

/-! ### C4 -/

/-- C4 (code bug): with no history store present, the claim (and the
code's own comment at line 140) expects header initialization before
the known-URL load; but `main` calls `load_existing_links()` at line 137
before the existence check of lines 141-144, so `open('links.csv', 'r')`
raises `FileNotFoundError` and the whole run fails, for every scrape and
SMTP outcome; the header-writing branch is unreachable. -/
theorem C4_missing_store_crashes (occFetch fedFetch : Except PyErr Links)
    (smtp : Except SmtpErr Unit) :
    script none occFetch fedFetch smtp = .error .fileNotFound := rfl

/-! ### C5 -/

/-- C5 counterexample: the OCC fetch raises (network failure) while the
Federal Reserve scrape would return a fresh link; the exception
propagates out of `main` and aborts the whole run, so the other source's
item is neither recorded nor notified — the failure is not isolated and
no empty item list is substituted. -/
theorem C5_counterexample :
    script (some [["Title", "Link", "Source"]])
        (.error (.requestException "ConnectionError")) (.ok [("T", "u")])
        (.ok ()) =
      .error (.requestException "ConnectionError") := rfl

/-- C5 (amended): a fetch of either adapter that completes but matches
nothing (non-200 body or selector mismatch) yields an empty item list
and is isolated — the other source's new items are still detected,
recorded and passed to the notifier.  A fetch that raises an exception
propagates and aborts the entire run without any notification: if the
OCC fetch raises, nothing has been appended and the Federal Reserve
source is never scraped; if the Federal Reserve fetch raises, the OCC
source's new rows have already been appended to the store but no
notification is sent. -/
theorem C5_fetch_failure (f : Csv) (ex : List String) (occL fedL : Links)
    (e : PyErr) (fedFetch : Except PyErr Links) (smtp : Except SmtpErr Unit)
    (hl : load_existing_links f = .ok ex) :
    (∃ pr, script (some f) (.ok []) (.ok fedL) smtp = .ok pr ∧
      pr.file = fileAfter f ex [] fedL ∧
      pr.new_links_found = get_new_links ex fedL ∧
      (pr.new_links_found ≠ [] → pr.email_arg = some pr.new_links_found)) ∧
    (∃ pr, script (some f) (.ok occL) (.ok []) smtp = .ok pr ∧
      pr.file = fileAfter f ex occL [] ∧
      pr.new_links_found = get_new_links ex occL ∧
      (pr.new_links_found ≠ [] → pr.email_arg = some pr.new_links_found)) ∧
    (script (some f) (.error e) fedFetch smtp = .error e ∧
      diskAfter (some f) (.error e) fedFetch = some f) ∧
    (script (some f) (.ok occL) (.error e) smtp = .error e ∧
      diskAfter (some f) (.ok occL) (.error e) =
        some (if (get_new_links ex occL).isEmpty then f
              else write_to_csv (get_new_links ex occL) "OCC" f)) := by
  refine ⟨?_, ?_, ?_, ?_⟩
  · have hmain := main_some_ok f ex [] fedL hl
    have hnil : get_new_links ex [] = [] := rfl
    rw [hnil, List.nil_append] at hmain
    by_cases hE : (get_new_links ex fedL).isEmpty
    · refine ⟨⟨fileAfter f ex [] fedL, get_new_links ex fedL, none, none⟩,
        by simp [script, hmain, hE], rfl, rfl, fun hne => ?_⟩
      rw [List.isEmpty_iff] at hE
      exact absurd hE hne
    · exact ⟨⟨fileAfter f ex [] fedL, get_new_links ex fedL,
        some (get_new_links ex fedL), send_email (get_new_links ex fedL) smtp⟩,
        by simp [script, hmain, hE], rfl, rfl, fun _ => rfl⟩
  · have hmain := main_some_ok f ex occL [] hl
    have hnil : get_new_links ex [] = [] := rfl
    rw [hnil, List.append_nil] at hmain
    by_cases hE : (get_new_links ex occL).isEmpty
    · refine ⟨⟨fileAfter f ex occL [], get_new_links ex occL, none, none⟩,
        by simp [script, hmain, hE], rfl, rfl, fun hne => ?_⟩
      rw [List.isEmpty_iff] at hE
      exact absurd hE hne
    · exact ⟨⟨fileAfter f ex occL [], get_new_links ex occL,
        some (get_new_links ex occL), send_email (get_new_links ex occL) smtp⟩,
        by simp [script, hmain, hE], rfl, rfl, fun _ => rfl⟩
  · exact ⟨by simp [script, main, hl], by simp [diskAfter, hl]⟩
  · exact ⟨by simp [script, main, hl], by simp [diskAfter, hl]⟩

/-- Witness for C5 at concrete inputs: an empty result from either
adapter is isolated; a raising OCC fetch aborts with nothing appended; a
raising Federal Reserve fetch aborts with the OCC row already on disk. -/
theorem C5_fetch_failure_witness :
    (∃ pr, script (some [["Title", "Link", "Source"]]) (.ok [])
        (.ok [("T", "u")]) (.ok ()) = .ok pr ∧
      pr.file = fileAfter [["Title", "Link", "Source"]] [] [] [("T", "u")] ∧
      pr.new_links_found = get_new_links [] [("T", "u")] ∧
      (pr.new_links_found ≠ [] → pr.email_arg = some pr.new_links_found)) ∧
    (∃ pr, script (some [["Title", "Link", "Source"]]) (.ok [("O", "v")])
        (.ok []) (.ok ()) = .ok pr ∧
      pr.file = fileAfter [["Title", "Link", "Source"]] [] [("O", "v")] [] ∧
      pr.new_links_found = get_new_links [] [("O", "v")] ∧
      (pr.new_links_found ≠ [] → pr.email_arg = some pr.new_links_found)) ∧
    (script (some [["Title", "Link", "Source"]])
        (.error (.requestException "timeout")) (.ok [("T", "u")]) (.ok ()) =
      .error (.requestException "timeout") ∧
      diskAfter (some [["Title", "Link", "Source"]])
        (.error (.requestException "timeout")) (.ok [("T", "u")]) =
        some [["Title", "Link", "Source"]]) ∧
    (script (some [["Title", "Link", "Source"]]) (.ok [("O", "v")])
        (.error (.requestException "timeout")) (.ok ()) =
      .error (.requestException "timeout") ∧
      diskAfter (some [["Title", "Link", "Source"]]) (.ok [("O", "v")])
        (.error (.requestException "timeout")) =
        some (if (get_new_links [] [("O", "v")]).isEmpty
              then [["Title", "Link", "Source"]]
              else write_to_csv (get_new_links [] [("O", "v")]) "OCC"
                [["Title", "Link", "Source"]])) :=
  C5_fetch_failure [["Title", "Link", "Source"]] [] [("O", "v")] [("T", "u")]
    (.requestException "timeout") (.ok [("T", "u")]) (.ok ()) rfl

/-! ### C6 -/

/-- C6: in any successful run of the script, `send_email` is not invoked
when the combined new-item list is empty, and is invoked (exactly once,
by construction of the entry point) with the full combined list when it
is non-empty. -/
theorem C6_notify_iff (file : Option Csv) (occFetch fedFetch : Except PyErr Links)
    (smtp : Except SmtpErr Unit) (pr : ProcResult)
    (h : script file occFetch fedFetch smtp = .ok pr) :
    (pr.new_links_found = [] → pr.email_arg = none) ∧
    (pr.new_links_found ≠ [] → pr.email_arg = some pr.new_links_found) := by
  unfold script at h
  split at h
  · exact absurd h (by simp)
  · split at h
    · injection h with h
      subst h
      refine ⟨fun _ => rfl, fun hne => ?_⟩
      rename_i hE
      rw [List.isEmpty_iff] at hE
      exact absurd hE hne
    · injection h with h
      subst h
      refine ⟨fun hnil => ?_, fun _ => rfl⟩
      rename_i hE
      rw [List.isEmpty_iff] at hE
      exact absurd hnil hE

/-- Witness for C6 at a concrete run with no new items. -/
theorem C6_notify_iff_witness :
    ((ProcResult.mk [["Title", "Link", "Source"], ["A", "u", "OCC"]] []
        none none).new_links_found = [] →
      (ProcResult.mk [["Title", "Link", "Source"], ["A", "u", "OCC"]] []
        none none).email_arg = none) ∧
    ((ProcResult.mk [["Title", "Link", "Source"], ["A", "u", "OCC"]] []
        none none).new_links_found ≠ [] →
      (ProcResult.mk [["Title", "Link", "Source"], ["A", "u", "OCC"]] []
        none none).email_arg =
        some (ProcResult.mk [["Title", "Link", "Source"], ["A", "u", "OCC"]] []
          none none).new_links_found) :=
  C6_notify_iff (some [["Title", "Link", "Source"], ["A", "u", "OCC"]])
    (.ok [("A", "u")]) (.ok []) (.ok ())
    (ProcResult.mk [["Title", "Link", "Source"], ["A", "u", "OCC"]] [] none none)
    rfl

/-! ### C7 -/

/-- C7: both adapters are filtered against the single known-URL snapshot
loaded at the start of the run; appends do not refresh it.  If a URL
outside the snapshot is scraped by both adapters, each filter
independently keeps it, it appears twice in the combined list, and one
row per adapter — a duplicate — is appended to the file. -/
theorem C7_shared_snapshot (f f2 : Csv) (ex : List String) (occL fedL nl : Links)
    (t1 t2 u : String)
    (hl : load_existing_links f = .ok ex) (hu : u ∉ ex)
    (h1 : (t1, u) ∈ occL) (h2 : (t2, u) ∈ fedL)
    (hrun : main (some f) (.ok occL) (.ok fedL) = .ok (f2, nl)) :
    (t1, u) ∈ get_new_links ex occL ∧ (t2, u) ∈ get_new_links ex fedL ∧
    (t1, u) ∈ nl ∧ (t2, u) ∈ nl ∧
    ∃ rows, f2 = f ++ rows ∧ [t1, u, "OCC"] ∈ rows ∧
      [t2, u, "Federal Reserve"] ∈ rows := by
  have hm1 : (t1, u) ∈ get_new_links ex occL :=
    (mem_get_new_links ex occL (t1, u)).mpr ⟨h1, hu⟩
  have hm2 : (t2, u) ∈ get_new_links ex fedL :=
    (mem_get_new_links ex fedL (t2, u)).mpr ⟨h2, hu⟩
  rw [main_some_ok f ex occL fedL hl] at hrun
  injection hrun with hrun
  injection hrun with hfile hnl
  refine ⟨hm1, hm2, ?_, ?_, appendedRows ex occL fedL, ?_, ?_, ?_⟩
  · rw [← hnl]
    exact List.mem_append_left _ hm1
  · rw [← hnl]
    exact List.mem_append_right _ hm2
  · rw [← hfile, fileAfter_eq]
  · exact List.mem_append_left _ (List.mem_map.mpr ⟨(t1, u), hm1, rfl⟩)
  · exact List.mem_append_right _ (List.mem_map.mpr ⟨(t2, u), hm2, rfl⟩)

/-- Witness for C7: both adapters scrape the same unseen URL `u`; the
run appends one OCC row and one Federal Reserve row for it. -/
theorem C7_shared_snapshot_witness :
    ("T1", "u") ∈ get_new_links [] [("T1", "u")] ∧
    ("T2", "u") ∈ get_new_links [] [("T2", "u")] ∧
    ("T1", "u") ∈ ([("T1", "u"), ("T2", "u")] : Links) ∧
    ("T2", "u") ∈ ([("T1", "u"), ("T2", "u")] : Links) ∧
    ∃ rows, ([["Title", "Link", "Source"], ["T1", "u", "OCC"],
        ["T2", "u", "Federal Reserve"]] : Csv) =
      [["Title", "Link", "Source"]] ++ rows ∧
      ["T1", "u", "OCC"] ∈ rows ∧ ["T2", "u", "Federal Reserve"] ∈ rows :=
  C7_shared_snapshot [["Title", "Link", "Source"]]
    [["Title", "Link", "Source"], ["T1", "u", "OCC"], ["T2", "u", "Federal Reserve"]]
    [] [("T1", "u")] [("T2", "u")] [("T1", "u"), ("T2", "u")] "T1" "T2" "u"
    rfl (by simp) (by simp) (by simp) rfl

/-! ### C8 -/

/-- C8: an SMTP failure inside `send_email` is swallowed: `send_email`
returns normally with the error merely logged, the script still succeeds
(`.ok`, i.e. unchanged exit status), and the final file and new-item
list are exactly those `main` had already produced before notification
was attempted. -/
theorem C8_send_failure_swallowed (file : Option Csv)
    (occFetch fedFetch : Except PyErr Links) (e : SmtpErr) (f2 : Csv) (nl : Links)
    (h : main file occFetch fedFetch = .ok (f2, nl)) :
    send_email nl (.error e) = some e ∧
    ∃ pr, script file occFetch fedFetch (.error e) = .ok pr ∧
      pr.file = f2 ∧ pr.new_links_found = nl ∧
      pr.email_logged = (if nl.isEmpty then none else some e) := by
  refine ⟨rfl, ?_⟩
  by_cases hE : nl.isEmpty
  · exact ⟨⟨f2, nl, none, none⟩, by simp [script, h, hE], rfl, rfl, by simp [hE]⟩
  · exact ⟨⟨f2, nl, some nl, send_email nl (.error e)⟩,
      by simp [script, h, hE], rfl, rfl, by simp [hE, send_email]⟩

/-- Witness for C8 at a concrete run with one new item and a failing
SMTP login. -/
theorem C8_send_failure_swallowed_witness :
    send_email [("A", "u")] (.error .authError) = some .authError ∧
    ∃ pr, script (some [["Title", "Link", "Source"]]) (.ok [("A", "u")])
        (.ok []) (.error .authError) = .ok pr ∧
      pr.file = [["Title", "Link", "Source"], ["A", "u", "OCC"]] ∧
      pr.new_links_found = [("A", "u")] ∧
      pr.email_logged = (if ([("A", "u")] : Links).isEmpty then none
        else some .authError) :=
  C8_send_failure_swallowed (some [["Title", "Link", "Source"]])
    (.ok [("A", "u")]) (.ok []) .authError
    [["Title", "Link", "Source"], ["A", "u", "OCC"]] [("A", "u")] rfl

/-! ### C9 -/

/-- One line per item, `title: url` then a newline, in the items' order:
the spec's description of the notification body after the preamble. -/
def linesOfItems : Links → String
  | [] => ""
  | p :: rest => p.1 ++ ": " ++ p.2 ++ "\n" ++ linesOfItems rest

theorem email_body_foldl (L : Links) (s : String) :
    L.foldl (fun acc p => acc ++ (p.1 ++ ": " ++ p.2 ++ "\n")) s =
      s ++ linesOfItems L := by
  induction L generalizing s with
  | nil => simp [linesOfItems]
  | cons p rest ih =>
    rw [List.foldl_cons, ih]
    simp [linesOfItems, String.append_assoc]

/-- C9: for every non-empty list of new items, the body built by
`send_email` is the fixed preamble followed by exactly one line per
item, of the form `title: url`, in the items' order. -/
theorem C9_email_body (new_links : Links) (h : new_links ≠ []) :
    email_body new_links = email_preamble ++ linesOfItems new_links :=
  email_body_foldl new_links email_preamble

/-- Witness for C9 at a concrete two-item list. -/
theorem C9_email_body_witness :
    email_body [("A", "u1"), ("B", "u2")] =
      email_preamble ++ linesOfItems [("A", "u1"), ("B", "u2")] :=
  C9_email_body [("A", "u1"), ("B", "u2")] (by simp)

/-! ### C10 -/

/-- C10: `load_existing_links` is partial on malformed stores.  On a
file with zero rows the header skip raises `StopIteration`; on a file
whose data section contains a row with fewer than two fields the column
access raises `IndexError`; and when a header is present and every data
row has at least two fields it returns normally with exactly the
second-column values of the data rows. -/
theorem C10_load_malformed (file : Csv) :
    (file = [] → load_existing_links file = .error .stopIteration) ∧
    (file ≠ [] → (∃ row ∈ file.tail, row.length < 2) →
      load_existing_links file = .error .indexError) ∧
    (file ≠ [] → (∀ row ∈ file.tail, 2 ≤ row.length) →
      load_existing_links file = .ok (file.tail.filterMap (fun r => r.get? 1)) ∧
      ∀ u, u ∈ file.tail.filterMap (fun r => r.get? 1) ↔
        ∃ row ∈ file.tail, row.get? 1 = some u) := by
  refine ⟨fun h => by rw [h]; rfl, ?_, ?_⟩
  · intro hne hbad
    cases file with
    | nil => exact absurd rfl hne
    | cons hd rows =>
      obtain ⟨row, hrow, hlen⟩ := hbad
      show readRowsLoop rows [] = .error .indexError
      rcases readRowsLoop_ok_or_indexError rows [] with ⟨m, hm⟩ | hm
      · have := readRowsLoop_ok_lengths rows [] m hm row hrow
        omega
      · exact hm
  · intro hne hgood
    cases file with
    | nil => exact absurd rfl hne
    | cons hd rows =>
      constructor
      · show readRowsLoop rows [] = _
        rw [readRowsLoop_ok_all rows [] hgood]
        simp
      · intro u
        simp [List.mem_filterMap]

/-- Witness for C10: an empty file, a file with a one-field data row,
and a well-formed file. -/
theorem C10_load_malformed_witness :
    load_existing_links [] = .error .stopIteration ∧
    load_existing_links [["Title", "Link", "Source"], ["lonely"]] =
      .error .indexError ∧
    load_existing_links [["Title", "Link", "Source"], ["A", "u", "OCC"]] =
      .ok ["u"] := by
  refine ⟨(C10_load_malformed []).1 rfl,
    (C10_load_malformed [["Title", "Link", "Source"], ["lonely"]]).2.1 (by simp)
      ⟨["lonely"], by simp, by simp⟩, ?_⟩
  have h := ((C10_load_malformed
    [["Title", "Link", "Source"], ["A", "u", "OCC"]]).2.2 (by simp)
    (by simp)).1
  simpa using h

end ScrapeNews
